import Mathlib

/-!
Verification development for the Portfolio photo-gallery repository.

The gallery renderer (`app.js`, second revision in the delivered sources) is a
pure pipeline over an in-memory manifest: `processImageMetadata` normalises the
raw manifest records, `buildFilters` derives the facet chip lists,
`applyFilters` selects the visible records, and `renderGallery` /
`updatePagination` paginate them.  Those functions are embedded below as
executable Lean definitions over `List`-based data, with JavaScript machine
behaviour (string lowercasing, `Number` coercion, truthiness defaults,
`Array.prototype.slice`, `Math.round`, `Math.ceil`) made explicit.

The manifest synchronizer (`scripts/build_manifest.py`) is not among the
delivered source files; the `Sync` section models it from the specification
text, as flagged in its doc comments.
-/

namespace Portfolio

/-- The double-quote character, code point 34 (kept out of literal position). -/
def quotChar : Char := Char.ofNat 34

/-- The single-quote character, code point 39 (kept out of literal position). -/
def aposChar : Char := Char.ofNat 39

/-- ASCII lowercasing of one character, as `String.prototype.toLowerCase`
behaves on the ASCII range (the only range the embedding commits to). -/
def charLower (c : Char) : Char :=
  if 65 ≤ c.toNat ∧ c.toNat ≤ 90 then Char.ofNat (c.toNat + 32) else c

/-- Embedding of JavaScript `s.toLowerCase()` (restricted to ASCII). -/
def jsToLower (s : String) : String := String.mk (s.data.map charLower)

/-- Whitespace recognised by JavaScript `String.prototype.trim` (ASCII part). -/
def jsWhitespace (c : Char) : Bool :=
  c = ' ' || c = Char.ofNat 9 || c = Char.ofNat 10 || c = Char.ofNat 11 ||
    c = Char.ofNat 12 || c = Char.ofNat 13

/-- Embedding of JavaScript `s.trim()`. -/
def jsTrim (s : String) : String :=
  String.mk (((s.data.dropWhile jsWhitespace).reverse.dropWhile jsWhitespace).reverse)

/-- Substring test on character lists: does `pat` occur contiguously in the
second argument?  This is `String.prototype.includes`. -/
def listContains (pat : List Char) : List Char → Bool
  | [] => pat.isEmpty
  | a :: rest => pat.isPrefixOf (a :: rest) || listContains pat rest

/-- Embedding of JavaScript `s.includes(sub)`. -/
def strIncludes (s sub : String) : Bool := listContains sub.data s.data

/-- A processed gallery record, the element type of `allItems` after
`processImageMetadata` (app.js, second revision, lines 630-650).  `path` stays
optional because the spread `...item` does not default it. -/
structure Item where
  id : String
  name : String
  path : Option String
  tags : List String
  season : String
  year : Int
  difficulty : Int
  orientation : String
  color : String
  camera : String
  lens : String
  description : String
  width : Int
  height : Int
  dateTime : Option String
deriving DecidableEq, Repr, Inhabited

/-- `getCollectionLabel` (app.js lines 508-511): trim the path and fall back to
`"Uncategorized"` when the result is empty ( `path || ''` also maps a missing
path to the empty string). -/
def getCollectionLabel (path : Option String) : String :=
  let trimmed := jsTrim (path.getD "")
  if 0 < trimmed.length then trimmed else "Uncategorized"

/-- The active filter selections assembled by `getActiveFilters`
(app.js lines 766-788).  `search` holds the raw input box text; the
getActiveFilters pipeline lowercases it, which `matchesItem` reproduces. -/
structure Filters where
  season : List String
  difficulty : List String
  orientation : List String
  collection : List String
  color : List String
  search : String
deriving DecidableEq, Repr

/-- The search haystack of `applyFilters` (app.js line 802):
`` `${item.name} ${item.tags.join(' ')} ${item.camera} ${item.lens} ${item.path || ''} ${item.description || ''}` ``. -/
def searchStringOf (it : Item) : String :=
  it.name ++ " " ++ String.intercalate " " it.tags ++ " " ++ it.camera ++ " " ++
    it.lens ++ " " ++ it.path.getD "" ++ " " ++ it.description

/-- The per-item predicate inside `applyFilters` (app.js lines 794-806): a
chain of early `return false` guards, one per facet, then the search guard. -/
def matchesItem (f : Filters) (it : Item) : Bool :=
  if 0 < f.season.length ∧ it.season ∉ f.season then false
  else if 0 < f.difficulty.length ∧ toString it.difficulty ∉ f.difficulty then false
  else if 0 < f.orientation.length ∧ it.orientation ∉ f.orientation then false
  else if 0 < f.collection.length ∧ getCollectionLabel it.path ∉ f.collection then false
  else if 0 < f.color.length ∧ it.color ∉ f.color then false
  else if jsToLower f.search ≠ "" ∧
      ¬ strIncludes (jsToLower (searchStringOf it)) (jsToLower f.search) = true then false
  else true

/-- The production of `filteredItems` in `applyFilters` (app.js line 794):
`allItems.filter(item => ...)`. -/
def applyFilters (items : List Item) (f : Filters) : List Item :=
  items.filter (fun it => matchesItem f it)

/-- The characterisation of the filter in claim C1 (stated from the spec
sentence): conjunctive facet membership for every facet with a non-empty
selection, plus a case-insensitive substring search over
name/tags/camera/lens/path/description when the search string is non-empty. -/
def specMatchesC1 (f : Filters) (it : Item) : Prop :=
  (f.season ≠ [] → it.season ∈ f.season) ∧
  (f.difficulty ≠ [] → toString it.difficulty ∈ f.difficulty) ∧
  (f.orientation ≠ [] → it.orientation ∈ f.orientation) ∧
  (f.collection ≠ [] → getCollectionLabel it.path ∈ f.collection) ∧
  (f.color ≠ [] → it.color ∈ f.color) ∧
  (f.search ≠ "" → strIncludes (jsToLower (searchStringOf it)) (jsToLower f.search) = true)

instance (f : Filters) (it : Item) : Decidable (specMatchesC1 f it) := by
  unfold specMatchesC1; infer_instance

/-- The result of coercing a JavaScript value with `Number(...)`: a finite
number (faithfully a rational, since every finite IEEE double is rational),
`NaN`, or a signed infinity. -/
inductive JSNum where
  | finite (q : ℚ)
  | nan
  | posInf
  | negInf
deriving DecidableEq, Repr

/-- A JavaScript value as it can appear in a manifest `difficulty` field.  A
string carries its `Number(...)` parse as data (numeric string parsing is a
JS builtin, external to the code under verification). -/
inductive JSValue where
  | vNum (x : JSNum)
  | vStr (s : String) (numberParse : JSNum)
  | vNull
  | vUndef
  | vBool (b : Bool)
deriving DecidableEq, Repr

/-- JavaScript `Number(value)`: numbers pass through, strings parse, `null`
and `false` give `0`, `true` gives `1`, `undefined` gives `NaN`. -/
def toNumber : JSValue → JSNum
  | .vNum x => x
  | .vStr _ p => p
  | .vNull => .finite 0
  | .vUndef => .nan
  | .vBool true => .finite 1
  | .vBool false => .finite 0

/-- `clamp` (app.js lines 660-662): `Math.min(max, Math.max(min, value))`. -/
def clamp (value lo hi : Int) : Int := min hi (max lo value)

/-- `Math.round` on a finite value: round half toward positive infinity, which
is exactly the Mathlib function `round` (floor of q + 1/2). -/
def jsRound (q : ℚ) : Int := round q

/-- `normalizeDifficultyInput` (app.js lines 652-658): coerce with `Number`,
and if the result is finite, round and clamp into `[1, 5]`; otherwise `3`. -/
def normalizeDifficultyInput (value : JSValue) : Int :=
  match toNumber value with
  | .finite q => clamp (jsRound q) 1 5
  | _ => 3

/-- JavaScript `o || d` for a string-valued field that may be absent:
`undefined` and the empty string are falsy. -/
def jsOrStr (o : Option String) (d : String) : String :=
  match o with
  | some s => if s = "" then d else s
  | none => d

/-- JavaScript `o || d` for an integer-valued field that may be absent:
`undefined` and `0` are falsy. -/
def jsOrInt (o : Option Int) (d : Int) : Int :=
  match o with
  | some n => if n = 0 then d else n
  | none => d

/-- A raw manifest record as read from `public/manifest.json`, before
`processImageMetadata` normalises it. -/
structure RawItem where
  id : String
  name : String
  path : Option String
  tags : Option (List String)
  season : Option String
  year : Option Int
  difficulty : JSValue
  orientation : Option String
  color : Option String
  camera : Option String
  lens : Option String
  description : Option String
  width : Option Int
  height : Option Int
  dateTime : Option String
deriving DecidableEq, Repr

/-- `processImageMetadata` (app.js lines 630-650): per-record field defaulting
over the manifest.  `currentYear` stands for `new Date().getFullYear()`. -/
def processImageMetadata (currentYear : Int) (manifest : List RawItem) : List Item :=
  manifest.map fun item =>
    { id := item.id
      name := item.name
      path := item.path
      tags := item.tags.getD []
      season := jsOrStr item.season "Unknown"
      year := jsOrInt item.year currentYear
      difficulty := normalizeDifficultyInput item.difficulty
      orientation := jsOrStr item.orientation "Landscape"
      color := jsOrStr item.color "Neutral"
      camera := jsOrStr item.camera "Unknown"
      lens := jsOrStr item.lens "Unknown"
      description := jsOrStr item.description ""
      width := jsOrInt item.width 0
      height := jsOrInt item.height 0
      dateTime := match item.dateTime with
        | some s => if s = "" then none else some s
        | none => none }

/-- `config.ITEMS_PER_PAGE || 20` (app.js lines 822, 856, 918): the falsy
value `0` also falls back to the default `20`. -/
def effectivePageSize (cfg : Option Nat) : Nat :=
  match cfg with
  | none => 20
  | some n => if n = 0 then 20 else n

/-- The page slice of `renderGallery` (app.js lines 823-825):
`filteredItems.slice((currentPage - 1) * itemsPerPage, start + itemsPerPage)`. -/
def pageItemsOf (cfg : Option Nat) (page : Nat) (filtered : List Item) : List Item :=
  (filtered.drop ((page - 1) * effectivePageSize cfg)).take (effectivePageSize cfg)

/-- What `renderGallery` writes into the grid: either the empty-state banner
or the cards of a non-empty page slice. -/
inductive RenderOutput where
  | emptyState
  | pageItems (items : List Item)
deriving DecidableEq, Repr

/-- `renderGallery` (app.js lines 820-853), abstracted to the content it
renders: the page slice when non-empty, the empty-state message otherwise. -/
def renderGallery (cfg : Option Nat) (page : Nat) (filtered : List Item) : RenderOutput :=
  let pageItems := pageItemsOf cfg page filtered
  if pageItems.isEmpty then .emptyState else .pageItems pageItems

/-- The filter-and-paginate pipeline of the renderer: `applyFilters` followed
by `renderGallery`, a function of the configuration, manifest items, active
filters and page index only. -/
def visibleSubset (cfg : Option Nat) (items : List Item) (f : Filters) (page : Nat) :
    RenderOutput :=
  renderGallery cfg page (applyFilters items f)

/-- `Math.ceil(totalItems / itemsPerPage)` over naturals (for a positive
divisor). -/
def ceilDiv (a b : Nat) : Nat := (a + b - 1) / b

/-- `Math.max(1, Math.ceil(filteredItems.length / itemsPerPage))`, the page
count used by `applyFilters` and `updatePagination` (app.js lines 809, 858). -/
def maxPageOf (cfg : Option Nat) (filteredLen : Nat) : Nat :=
  max 1 (ceilDiv filteredLen (effectivePageSize cfg))

/-- The `currentPage` assignment in `applyFilters` (app.js lines 807-813):
with `preservePage`, clamp the previous page to the new page count, otherwise
reset to page 1. -/
def pageAfterApplyFilters (preservePage : Bool) (previousPage : Nat) (cfg : Option Nat)
    (filteredLen : Nat) : Nat :=
  if preservePage then min previousPage (maxPageOf cfg filteredLen) else 1

/-- The `nextBtn` click handler (app.js lines 917-925): advance only while
below `Math.ceil(filteredItems.length / itemsPerPage)` (no `max 1` here). -/
def pageAfterNext (cfg : Option Nat) (filteredLen page : Nat) : Nat :=
  if page < ceilDiv filteredLen (effectivePageSize cfg) then page + 1 else page

/-- The `prevBtn` click handler (app.js lines 910-916): step back only while
above page 1. -/
def pageAfterPrev (page : Nat) : Nat :=
  if 1 < page then page - 1 else page

/-- The two pagination button states set by `updatePagination`. -/
structure PaginationButtons where
  prevDisabled : Bool
  nextDisabled : Bool
deriving DecidableEq, Repr

/-- `updatePagination` (app.js lines 855-864): `prevBtn.disabled =
currentPage === 1 || totalItems === 0`, `nextBtn.disabled = currentPage >=
totalPages || totalItems === 0` with `totalPages = max 1 (ceil ...)`. -/
def updatePagination (cfg : Option Nat) (filteredLen page : Nat) : PaginationButtons :=
  { prevDisabled := decide (page = 1) || decide (filteredLen = 0)
    nextDisabled := decide (maxPageOf cfg filteredLen ≤ page) || decide (filteredLen = 0) }

/-- Worker for `[...new Set(xs)]`: keep the first occurrence of each value,
tracking the values already seen. -/
def jsSetDedupAux [DecidableEq α] (seen : List α) : List α → List α
  | [] => []
  | a :: l => if a ∈ seen then jsSetDedupAux seen l else a :: jsSetDedupAux (a :: seen) l

/-- JavaScript `[...new Set(xs)]`: the distinct values in first-occurrence
order. -/
def jsSetDedup [DecidableEq α] (l : List α) : List α := jsSetDedupAux [] l

/-- Stable insertion into a sorted list, the building block of the embedding
of `Array.prototype.sort` (which is stable and produces a sorted result). -/
def insertLe (le : α → α → Bool) (a : α) : List α → List α
  | [] => [a]
  | b :: l => if le a b then a :: b :: l else b :: insertLe le a l

/-- Stable sort by a boolean `≤`-style comparator, modelling
`Array.prototype.sort(cmp)` (stable, result ordered by `cmp`). -/
def insSort (le : α → α → Bool) : List α → List α
  | [] => []
  | a :: l => insertLe le a (insSort le l)

/-- JavaScript `Array.prototype.indexOf`: first index of the value, `-1` when
absent. -/
def jsIndexOf [DecidableEq α] (a : α) : List α → Int
  | [] => -1
  | b :: l =>
    if b = a then 0
    else
      let r := jsIndexOf a l
      if r = -1 then -1 else r + 1

/-- The fixed `SEASONS` constant (app.js line 486). -/
def SEASONS : List String := ["Spring", "Summer", "Fall", "Winter"]

/-- The keys of `COLOR_SWATCHES` in declaration order, i.e. `COLOR_ORDER`
(app.js lines 487-500). -/
def COLOR_ORDER : List String :=
  ["Red", "Orange", "Yellow", "Green", "Blue", "Purple", "Brown", "Black",
    "White", "Gray", "Neutral"]

/-- The comparator of `sortColorsForDisplay` (app.js lines 664-673) as a
boolean `≤`: palette order first, unknown colors after known ones, unknown
pairs by string order (`localeCompare` restricted to code-point order). -/
def colorLe (a b : String) : Bool :=
  let ia := jsIndexOf a COLOR_ORDER
  let ib := jsIndexOf b COLOR_ORDER
  if ia = -1 ∧ ib = -1 then decide (a ≤ b)
  else if ia = -1 then false
  else if ib = -1 then true
  else decide (ia ≤ ib)

/-- Default JavaScript `sort()` comparison for strings, restricted to
code-point order. -/
def strLe (a b : String) : Bool := decide (a ≤ b)

/-- Numeric ascending comparator `(a, b) => a - b`. -/
def intLe (a b : Int) : Bool := decide (a ≤ b)

/-- `sortColorsForDisplay` (app.js lines 664-673). -/
def sortColorsForDisplay (colors : List String) : List String :=
  insSort colorLe colors

/-- The five facet chip value lists produced by `buildFilters`. -/
structure BuiltFilters where
  season : List String
  difficulty : List String
  orientation : List String
  collection : List String
  color : List String
deriving DecidableEq, Repr

/-- `buildFilters` (app.js lines 676-705), restricted to the chip values it
renders: the season chips are the fixed `SEASONS` list; difficulty chips are
the distinct difficulties sorted ascending and stringified (the
undefined/null filter of the source is vacuous here because `Item.difficulty`
is total); orientation and collection chips are the distinct values sorted;
color chips are the distinct color values (empty defaulted to Neutral) in
palette order. -/
def buildFilters (items : List Item) : BuiltFilters :=
  { season := SEASONS
    difficulty :=
      (insSort intLe (jsSetDedup (items.map fun i => i.difficulty))).map toString
    orientation := insSort strLe (jsSetDedup (items.map fun i => i.orientation))
    collection :=
      insSort strLe (jsSetDedup (items.map fun i => getCollectionLabel i.path))
    color :=
      sortColorsForDisplay
        (jsSetDedup (items.map fun i => if i.color = "" then "Neutral" else i.color)) }

/-- The state of the `localStorage` slot under `CACHE_KEY`: absent, present
but unparsable, or a parsed `{ data, timestamp }` envelope. -/
inductive CacheState where
  | absent
  | corrupt
  | entry (data : List RawItem) (timestamp : Int)
deriving DecidableEq, Repr

/-- Milliseconds per hour, the divisor `1000 * 60 * 60` of `getCachedManifest`. -/
def msPerHour : ℚ := 1000 * 60 * 60

/-- `getCachedManifest` (app.js lines 600-615): `null` when the slot is absent
or unparsable; otherwise return the stored data unless
`(now - timestamp) / (1000*60*60) > CACHE_EXPIRY_HOURS` (24). -/
def getCachedManifest (st : CacheState) (now : Int) : Option (List RawItem) :=
  match st with
  | .absent => none
  | .corrupt => none
  | .entry data ts => if ((now - ts : Int) : ℚ) / msPerHour > 24 then none else some data

/-- The `localStorage` slot after `getCachedManifest` ran: an expired entry is
removed (`localStorage.removeItem`); absent and unparsable slots are left as
they are. -/
def cacheAfterGet (st : CacheState) (now : Int) : CacheState :=
  match st with
  | .entry data ts =>
    if ((now - ts : Int) : ℚ) / msPerHour > 24 then .absent else .entry data ts
  | s => s

/-- The terminal error text of `loadManifestWithCache` (app.js line 597). -/
def manifestErrorMsg : String :=
  "Manifest unavailable. Ensure the build_manifest workflow has generated public/manifest.json."

/-- The fetch leg of `loadManifestWithCache` (app.js lines 586-597): `fetched`
is `some m` when fetching `public/manifest.json` succeeded with body `m`, and
`none` when the fetch failed or the response was not ok; in the latter case
control falls through to the `throw`. -/
def fetchFreshManifest (fetched : Option (List RawItem)) : Except String (List RawItem) :=
  match fetched with
  | some m => Except.ok m
  | none => Except.error manifestErrorMsg

/-- `loadManifestWithCache` (app.js lines 576-598): use a fresh non-empty
cached manifest; discard a fresh but empty cached manifest and fetch; fetch
when there is no usable cache; throw when the fetch leg fails too. -/
def loadManifestWithCache (st : CacheState) (now : Int) (fetched : Option (List RawItem)) :
    Except String (List RawItem) :=
  match getCachedManifest st now with
  | some cached =>
    if 0 < cached.length then Except.ok cached else fetchFreshManifest fetched
  | none => fetchFreshManifest fetched

/-- The UI-facing configuration read from `public/config.json`. -/
structure GalleryConfig where
  title : Option String
  itemsPerPage : Option Nat
deriving DecidableEq, Repr

/-- The outcome of `init`: a rendered gallery over the processed items, or a
single terminal failure message (the `catch` arm shows one `showError` and
renders nothing). -/
inductive InitResult where
  | success (allItems : List Item)
  | failure (message : String)
deriving DecidableEq, Repr

/-- `init` (app.js lines 544-561): load the config, load the manifest, process
it; any thrown error is caught once and surfaced as a single
`Failed to load gallery: ...` message with no gallery rendered. -/
def init (cfg : Option GalleryConfig) (st : CacheState) (now : Int)
    (fetched : Option (List RawItem)) (currentYear : Int) : InitResult :=
  match cfg with
  | none =>
    InitResult.failure
      "Failed to load gallery: Configuration file not found. Ensure public/config.json exists."
  | some _ =>
    match loadManifestWithCache st now fetched with
    | Except.ok m => InitResult.success (processImageMetadata currentYear m)
    | Except.error e => InitResult.failure ("Failed to load gallery: " ++ e)

/-- The replacement of one character in `escapeHtml` (app.js lines 1028-1031):
the five characters matched by the global character class (ampersand, the two
angle brackets, double quote, single quote) map to their entities, every
other character is kept. -/
def escChar (c : Char) : List Char :=
  if c = '&' then ['&', 'a', 'm', 'p', ';']
  else if c = '<' then ['&', 'l', 't', ';']
  else if c = '>' then ['&', 'g', 't', ';']
  else if c = quotChar then ['&', 'q', 'u', 'o', 't', ';']
  else if c = aposChar then ['&', '#', '0', '3', '9', ';']
  else [c]

/-- `escapeHtml` (app.js lines 1028-1031). -/
def escapeHtml (s : String) : String :=
  String.mk (s.data.map escChar).flatten

namespace Sync

/-- Modelled from the spec: the Manifest Synchronizer lives in
`scripts/build_manifest.py`, which is not among the delivered source files
(only the README/delivery notes describing it are).  A `FileRecord` from the
Remote Source Lister, per spec section 3: stable identifier, name,
slash-separated path, MIME type, created/modified timestamps. -/
structure SFile where
  id : String
  name : String
  path : String
  mimeType : String
  createdTime : String
  modifiedTime : String
deriving DecidableEq, Repr

/-- Modelled from the spec: an `EnrichedRecord` produced by the Metadata
Enricher (spec section 3): the file fields plus tags, difficulty, dominant
color, orientation, camera, lens, dimensions, description, and the
tagging-version stamp `aiVersion`. -/
structure SRecord where
  file : SFile
  tags : List String
  difficulty : Int
  color : String
  orientation : String
  camera : String
  lens : String
  width : Int
  height : Int
  description : String
  aiVersion : String
deriving DecidableEq, Repr

/-- Modelled from the spec: a `CacheEntry` (spec section 3) stores the last
`EnrichedRecord` and the modification timestamp observed when it was
produced, keyed by file identifier. -/
structure CacheEntry where
  record : SRecord
  modifiedTime : String
deriving DecidableEq, Repr

/-- Which path the Synchronizer took for one file. -/
inductive Decision where
  | cacheHit
  | primaryPath
  | fallbackPath
deriving DecidableEq, Repr

/-- Modelled from the spec: cache validity (spec section 3 invariant) — an
entry is reusable iff its stored modification timestamp equals the current
modification timestamp of the file and its tagging-version stamp equals the
current enrichment version. -/
def entryValid (version : String) (e : CacheEntry) (f : SFile) : Prop :=
  e.modifiedTime = f.modifiedTime ∧ e.record.aiVersion = version

instance (version : String) (e : CacheEntry) (f : SFile) :
    Decidable (entryValid version e f) := by
  unfold entryValid; infer_instance

/-- Modelled from the spec: the enrichment of one stale file (spec section
4.1) — invoke the primary path (retry/backoff folded into `primary`, whose
`none` stands for exhausting the retries); on failure use the fallback path,
which never fails; stamp the current version regardless of the path. -/
def enrichStale (version : String) (primary : SFile → Option SRecord)
    (fallback : SFile → SRecord) (f : SFile) : SRecord × Decision :=
  match primary f with
  | some r => ({ r with aiVersion := version }, .primaryPath)
  | none => ({ fallback f with aiVersion := version }, .fallbackPath)

/-- Modelled from the spec: the per-file reconciliation of the Synchronizer
(spec section 4.1) — look up the cache entry by identifier; if present and
valid, copy the cached record verbatim with no enrichment call; otherwise
enrich. -/
def syncFile (version : String) (cache : String → Option CacheEntry)
    (primary : SFile → Option SRecord) (fallback : SFile → SRecord)
    (f : SFile) : SRecord × Decision :=
  match cache f.id with
  | some e =>
    if entryValid version e f then (e.record, .cacheHit)
    else enrichStale version primary fallback f
  | none => enrichStale version primary fallback f

/-- Modelled from the spec: a run of the Synchronizer over the listing (spec
section 4.1) — one `EnrichedRecord` per input `FileRecord`, in input order. -/
def syncRun (version : String) (cache : String → Option CacheEntry)
    (primary : SFile → Option SRecord) (fallback : SFile → SRecord)
    (files : List SFile) : List (SRecord × Decision) :=
  files.map (syncFile version cache primary fallback)

/-- Modelled from the spec: the new manifest is the ordered sequence of the
produced records. -/
def manifestOf (version : String) (cache : String → Option CacheEntry)
    (primary : SFile → Option SRecord) (fallback : SFile → SRecord)
    (files : List SFile) : List SRecord :=
  (syncRun version cache primary fallback files).map Prod.fst

end Sync

/-- A concrete processed record used by the scenario parts of the theorems. -/
def demoItem (d : Int) (nm : String) : Item :=
  { id := nm, name := nm, path := none, tags := [], season := "Spring", year := 2024,
    difficulty := d, orientation := "Landscape", color := "Neutral", camera := "X",
    lens := "Y", description := "", width := 0, height := 0, dateTime := none }

/-- The active-filter state of the C1 scenario: only difficulty chip "2"
selected, no other facet selection, empty search. -/
def onlyDifficulty2 : Filters :=
  { season := [], difficulty := ["2"], orientation := [], collection := [],
    color := [], search := "" }

/-- A record whose season value does not appear among the fixed season chips. -/
def unknownSeasonItem : Item := { demoItem 2 "u" with season := "Unknown" }

/-- A raw manifest record with an absent difficulty field. -/
def demoRaw : RawItem :=
  { id := "r", name := "R", path := none, tags := none, season := none, year := none,
    difficulty := JSValue.vUndef, orientation := none, color := none, camera := none,
    lens := none, description := none, width := none, height := none, dateTime := none }

/-- A concrete `FileRecord` for the synchronizer scenario. -/
def Sync.demoFile : Sync.SFile :=
  { id := "a", name := "A", path := "", mimeType := "image/jpeg",
    createdTime := "t0", modifiedTime := "t1" }

/-- A concrete `EnrichedRecord` for the synchronizer scenario. -/
def Sync.demoRecord : Sync.SRecord :=
  { file := Sync.demoFile, tags := ["Fall", "Mountain"], difficulty := 3,
    color := "Orange", orientation := "Landscape", camera := "C", lens := "L",
    width := 100, height := 50, description := "d", aiVersion := "v1" }

/-- A concrete cache holding a valid entry for `demoFile`. -/
def Sync.demoCache : String → Option Sync.CacheEntry := fun i =>
  if i = "a" then some { record := Sync.demoRecord, modifiedTime := "t1" } else none

/-- A primary enrichment path that always exhausts its retries. -/
def Sync.demoPrimary : Sync.SFile → Option Sync.SRecord := fun _ => none

/-- A fallback enrichment path producing a visibly different record. -/
def Sync.demoFallback : Sync.SFile → Sync.SRecord := fun _ =>
  { Sync.demoRecord with tags := [], aiVersion := "stale" }

/-! Helper lemmas. -/

theorem jsToLower_eq_empty_iff (s : String) : jsToLower s = "" ↔ s = "" := by
  constructor
  · intro h
    apply String.ext
    have hd := congrArg String.data h
    simpa [jsToLower, List.map_eq_nil_iff] using hd
  · rintro rfl
    rfl

theorem facet_pass_iff {β : Type} {l : List β} {x : β}
    (h : ¬(0 < l.length ∧ x ∉ l)) : l ≠ [] → x ∈ l := by
  intro hne
  rcases not_and_or.mp h with h | h
  · exact absurd (List.length_pos.mpr hne) h
  · exact not_not.mp h

theorem matchesItem_iff (f : Filters) (it : Item) :
    matchesItem f it = true ↔ specMatchesC1 f it := by
  unfold matchesItem specMatchesC1
  split_ifs with h1 h2 h3 h4 h5 h6
  · simp only [Bool.false_eq_true, false_iff]
    rintro ⟨s1, -, -, -, -, -⟩
    exact h1.2 (s1 (List.length_pos.mp h1.1))
  · simp only [Bool.false_eq_true, false_iff]
    rintro ⟨-, s2, -, -, -, -⟩
    exact h2.2 (s2 (List.length_pos.mp h2.1))
  · simp only [Bool.false_eq_true, false_iff]
    rintro ⟨-, -, s3, -, -, -⟩
    exact h3.2 (s3 (List.length_pos.mp h3.1))
  · simp only [Bool.false_eq_true, false_iff]
    rintro ⟨-, -, -, s4, -, -⟩
    exact h4.2 (s4 (List.length_pos.mp h4.1))
  · simp only [Bool.false_eq_true, false_iff]
    rintro ⟨-, -, -, -, s5, -⟩
    exact h5.2 (s5 (List.length_pos.mp h5.1))
  · simp only [Bool.false_eq_true, false_iff]
    rintro ⟨-, -, -, -, -, s6⟩
    have hne : f.search ≠ "" := by
      intro he
      exact h6.1 (by rw [he]; rfl)
    exact h6.2 (s6 hne)
  · simp only [true_iff]
    refine ⟨facet_pass_iff h1, facet_pass_iff h2, facet_pass_iff h3,
      facet_pass_iff h4, facet_pass_iff h5, ?_⟩
    intro hne
    rcases not_and_or.mp h6 with h | h
    · exact absurd (fun he => hne ((jsToLower_eq_empty_iff f.search).mp he)) h
    · exact not_not.mp h

theorem mem_jsSetDedupAux [DecidableEq α] (seen : List α) (l : List α) (x : α) :
    x ∈ jsSetDedupAux seen l ↔ x ∈ l ∧ x ∉ seen := by
  induction l generalizing seen with
  | nil => simp [jsSetDedupAux]
  | cons a t ih =>
    simp only [jsSetDedupAux]
    split_ifs with ha
    · rw [ih]
      simp only [List.mem_cons]
      constructor
      · rintro ⟨hx, hs⟩; exact ⟨Or.inr hx, hs⟩
      · rintro ⟨hx | hx, hs⟩
        · exact absurd (hx ▸ ha) hs
        · exact ⟨hx, hs⟩
    · simp only [List.mem_cons, ih, List.mem_cons, not_or]
      constructor
      · rintro (rfl | ⟨hx, hne, hs⟩)
        · exact ⟨Or.inl rfl, fun hs => ha (by simpa using hs)⟩
        · exact ⟨Or.inr hx, hs⟩
      · rintro ⟨rfl | hx, hs⟩
        · exact Or.inl rfl
        · by_cases hxa : x = a
          · exact Or.inl hxa
          · exact Or.inr ⟨hx, hxa, hs⟩

theorem mem_jsSetDedup [DecidableEq α] (l : List α) (x : α) :
    x ∈ jsSetDedup l ↔ x ∈ l := by
  simp [jsSetDedup, mem_jsSetDedupAux]

theorem nodup_jsSetDedupAux [DecidableEq α] (seen : List α) (l : List α) :
    (jsSetDedupAux seen l).Nodup := by
  induction l generalizing seen with
  | nil => simp [jsSetDedupAux]
  | cons a t ih =>
    simp only [jsSetDedupAux]
    split_ifs with ha
    · exact ih seen
    · refine List.Nodup.cons ?_ (ih (a :: seen))
      intro hmem
      rcases (mem_jsSetDedupAux (a :: seen) t a).mp hmem with ⟨-, hs⟩
      exact hs (List.mem_cons_self a seen)

theorem nodup_jsSetDedup [DecidableEq α] (l : List α) : (jsSetDedup l).Nodup :=
  nodup_jsSetDedupAux [] l

theorem insertLe_perm (le : α → α → Bool) (a : α) (l : List α) :
    (insertLe le a l).Perm (a :: l) := by
  induction l with
  | nil => simp [insertLe]
  | cons b t ih =>
    simp only [insertLe]
    split_ifs with h
    · exact List.Perm.refl _
    · exact ((ih.cons b).trans (List.Perm.swap a b t))

theorem insSort_perm (le : α → α → Bool) (l : List α) :
    (insSort le l).Perm l := by
  induction l with
  | nil => simp [insSort]
  | cons a t ih =>
    exact (insertLe_perm le a (insSort le t)).trans (ih.cons a)

theorem mem_insSort (le : α → α → Bool) (l : List α) (x : α) :
    x ∈ insSort le l ↔ x ∈ l :=
  (insSort_perm le l).mem_iff

theorem nodup_insSort (le : α → α → Bool) (l : List α) (h : l.Nodup) :
    (insSort le l).Nodup :=
  (insSort_perm le l).nodup_iff.mpr h

theorem matchesItem_eq_decide (f : Filters) (it : Item) :
    matchesItem f it = decide (specMatchesC1 f it) := by
  cases hs : decide (specMatchesC1 f it) with
  | true => exact (matchesItem_iff f it).mpr (of_decide_eq_true hs)
  | false =>
    cases hm : matchesItem f it with
    | false => rfl
    | true => exact absurd ((matchesItem_iff f it).mp hm) (of_decide_eq_false hs)

/-! Claim theorems. -/

/-- C1: `applyFilters` returns exactly the manifest records that (i) for each
facet with a non-empty selection have their facet value in the selected set
and (ii) when the search string is non-empty contain it case-insensitively as
a substring of the space-joined concatenation of
name/tags/camera/lens/path/description; the result preserves the original
manifest order (it is a sublist), and in the concrete 3-record scenario with
difficulties 2, 4, 2 and the difficulty filter {"2"} it consists of exactly
the two difficulty-2 records in original order. -/
theorem C1_applyFilters_filters_and_preserves_order :
    (∀ (items : List Item) (f : Filters),
        applyFilters items f = items.filter fun it => decide (specMatchesC1 f it))
    ∧ (∀ (items : List Item) (f : Filters), (applyFilters items f).Sublist items)
    ∧ applyFilters [demoItem 2 "a", demoItem 4 "b", demoItem 2 "c"] onlyDifficulty2
        = [demoItem 2 "a", demoItem 2 "c"] := by
  refine ⟨?_, ?_, ?_⟩
  · intro items f
    exact List.filter_congr fun it _ => matchesItem_eq_decide f it
  · intro items f
    exact List.filter_sublist items
  · decide

/-- C3 counterexample: the difficulty field `null` is a non-numeric manifest
value, yet `normalizeDifficultyInput` maps it to 1 (JavaScript coerces
`Number(null)` to the finite number 0, which is then clamped), not to 3 as
the clause "non-numeric or non-finite inputs become 3" of the claim requires. -/
theorem C3_null_difficulty_counterexample :
    normalizeDifficultyInput JSValue.vNull = 1
    ∧ normalizeDifficultyInput JSValue.vNull ≠ 3 := by
  have h : normalizeDifficultyInput JSValue.vNull = 1 := by
    show clamp (jsRound 0) 1 5 = 1
    norm_num [jsRound, clamp]
  exact ⟨h, by rw [h]; decide⟩

/-- C3 (amended): for every manifest record, whatever the type or value of
its difficulty field, `processImageMetadata` yields a difficulty that is an
integer between 1 and 5 inclusive; inputs whose JavaScript `Number(...)`
coercion is a finite number are rounded and clamped into [1, 5], and inputs
whose coercion is `NaN` or an infinity become 3. -/
theorem C3_difficulty_normalization :
    (∀ v : JSValue, 1 ≤ normalizeDifficultyInput v ∧ normalizeDifficultyInput v ≤ 5)
    ∧ (∀ (v : JSValue) (q : ℚ), toNumber v = JSNum.finite q →
        normalizeDifficultyInput v = clamp (jsRound q) 1 5)
    ∧ (∀ v : JSValue, (∀ q : ℚ, toNumber v ≠ JSNum.finite q) →
        normalizeDifficultyInput v = 3)
    ∧ (∀ (cy : Int) (manifest : List RawItem) (it : Item),
        it ∈ processImageMetadata cy manifest →
        (1 ≤ it.difficulty ∧ it.difficulty ≤ 5)
        ∧ ∃ raw ∈ manifest, it.difficulty = normalizeDifficultyInput raw.difficulty) := by
  have hchar : ∀ (v : JSValue) (q : ℚ), toNumber v = JSNum.finite q →
      normalizeDifficultyInput v = clamp (jsRound q) 1 5 := by
    intro v q h
    unfold normalizeDifficultyInput
    rw [h]
  have hdefault : ∀ v : JSValue, (∀ q : ℚ, toNumber v ≠ JSNum.finite q) →
      normalizeDifficultyInput v = 3 := by
    intro v h
    unfold normalizeDifficultyInput
    cases hv : toNumber v with
    | finite q => exact absurd hv (h q)
    | nan => rfl
    | posInf => rfl
    | negInf => rfl
  have hbound : ∀ v : JSValue,
      1 ≤ normalizeDifficultyInput v ∧ normalizeDifficultyInput v ≤ 5 := by
    intro v
    unfold normalizeDifficultyInput
    cases toNumber v with
    | finite q =>
      unfold clamp
      constructor
      · exact le_min (by norm_num) (le_max_left 1 _)
      · exact min_le_left _ _
    | nan => norm_num
    | posInf => norm_num
    | negInf => norm_num
  refine ⟨hbound, hchar, hdefault, ?_⟩
  intro cy manifest it hit
  rcases List.mem_map.mp hit with ⟨raw, hraw, rfl⟩
  exact ⟨hbound raw.difficulty, raw, hraw, rfl⟩

/-- C3 witness: the amended theorem evaluated at concrete inputs — the finite
input 7 is clamped to 5 and bounded, and the non-finite input `undefined`
becomes 3. -/
theorem C3_difficulty_normalization_witness :
    (1 ≤ normalizeDifficultyInput (JSValue.vNum (JSNum.finite 7))
      ∧ normalizeDifficultyInput (JSValue.vNum (JSNum.finite 7)) ≤ 5)
    ∧ normalizeDifficultyInput (JSValue.vNum (JSNum.finite 7)) = clamp (jsRound 7) 1 5
    ∧ normalizeDifficultyInput JSValue.vUndef = 3
    ∧ ∃ raw ∈ [demoRaw],
        (processImageMetadata 2024 [demoRaw]).headI.difficulty
          = normalizeDifficultyInput raw.difficulty :=
  ⟨C3_difficulty_normalization.1 (JSValue.vNum (JSNum.finite 7)),
    C3_difficulty_normalization.2.1 (JSValue.vNum (JSNum.finite 7)) 7 rfl,
    C3_difficulty_normalization.2.2.1 JSValue.vUndef
      (by intro q h; simp [toNumber] at h),
    ((C3_difficulty_normalization.2.2.2 2024 [demoRaw]
        (processImageMetadata 2024 [demoRaw]).headI (by decide)).2)⟩

/-- C4: for every filtered list and page index p ≥ 1, `renderGallery`
displays exactly the items at zero-based positions (p−1)·N through p·N−1 of
the filtered list — the `slice` embedded as drop-then-take, with each
rendered position i coming from filtered position (p−1)·N + i — where N is
the configured ITEMS_PER_PAGE (for a positive configured value) and defaults
to 20 when unset; when that slice is empty the empty-state message is shown
instead of any items. -/
theorem C4_renderGallery_pagination (cfg : Option Nat) (page : Nat)
    (filtered : List Item) (_hp : 1 ≤ page) :
    effectivePageSize none = 20
    ∧ (∀ n : Nat, 0 < n → effectivePageSize (some n) = n)
    ∧ pageItemsOf cfg page filtered
        = (filtered.drop ((page - 1) * effectivePageSize cfg)).take (effectivePageSize cfg)
    ∧ (∀ i : Nat, ∀ hi : i < (pageItemsOf cfg page filtered).length,
        ∃ hj : (page - 1) * effectivePageSize cfg + i < filtered.length,
          (pageItemsOf cfg page filtered).get ⟨i, hi⟩
            = filtered.get ⟨(page - 1) * effectivePageSize cfg + i, hj⟩)
    ∧ (pageItemsOf cfg page filtered = [] →
        renderGallery cfg page filtered = RenderOutput.emptyState)
    ∧ (pageItemsOf cfg page filtered ≠ [] →
        renderGallery cfg page filtered
          = RenderOutput.pageItems (pageItemsOf cfg page filtered)) := by
  refine ⟨rfl, ?_, rfl, ?_, ?_, ?_⟩
  · intro n hn
    simp [effectivePageSize, Nat.pos_iff_ne_zero.mp hn]
  · intro i hi
    have hlen := hi
    simp only [pageItemsOf, List.length_take, List.length_drop] at hlen
    have hj : (page - 1) * effectivePageSize cfg + i < filtered.length := by omega
    refine ⟨hj, ?_⟩
    simp only [pageItemsOf, List.get_eq_getElem]
    rw [List.getElem_take, List.getElem_drop]
  · intro h
    simp [renderGallery, h]
  · intro h
    simp [renderGallery, List.isEmpty_iff, h]

/-- C4 witness: the pagination theorem applied at page 1 of a one-item list
with no configured page size. -/
theorem C4_renderGallery_pagination_witness :
    effectivePageSize none = 20
    ∧ renderGallery none 1 [demoItem 2 "a"]
        = RenderOutput.pageItems (pageItemsOf none 1 [demoItem 2 "a"]) :=
  ⟨(C4_renderGallery_pagination none 1 [demoItem 2 "a"] (by decide)).1,
    (C4_renderGallery_pagination none 1 [demoItem 2 "a"] (by decide)).2.2.2.2.2
      (by decide)⟩

/-- C5 counterexample: for the one-record manifest whose season is "Unknown",
the season facet built by `buildFilters` is not the set of distinct season
values occurring in the manifest — "Unknown" occurs but gets no chip, while
"Spring" gets a chip without occurring (the code renders the fixed `SEASONS`
constant). -/
theorem C5_season_facet_counterexample :
    "Unknown" ∈ [unknownSeasonItem].map Item.season
    ∧ "Unknown" ∉ (buildFilters [unknownSeasonItem]).season
    ∧ "Spring" ∈ (buildFilters [unknownSeasonItem]).season
    ∧ "Spring" ∉ [unknownSeasonItem].map Item.season := by decide

/-- C5 (amended): `buildFilters` produces the difficulty, orientation,
collection-path, and color facet value sets as exactly the distinct values of
those facets occurring in the manifest (difficulty values stringified, an
empty or missing path labelled "Uncategorized", an empty color defaulted to
"Neutral"), while the season facet is the fixed list Spring, Summer, Fall,
Winter regardless of the manifest. -/
theorem C5_buildFilters_facets (items : List Item) :
    (buildFilters items).season = SEASONS
    ∧ (∀ v, v ∈ (buildFilters items).difficulty ↔
        v ∈ items.map fun i => toString i.difficulty)
    ∧ (jsSetDedup (items.map fun i => i.difficulty)).Nodup
    ∧ ((buildFilters items).orientation.Nodup
        ∧ ∀ v, v ∈ (buildFilters items).orientation ↔
            v ∈ items.map fun i => i.orientation)
    ∧ ((buildFilters items).collection.Nodup
        ∧ ∀ v, v ∈ (buildFilters items).collection ↔
            v ∈ items.map fun i => getCollectionLabel i.path)
    ∧ ((buildFilters items).color.Nodup
        ∧ ∀ v, v ∈ (buildFilters items).color ↔
            v ∈ items.map fun i => if i.color = "" then "Neutral" else i.color)
    ∧ getCollectionLabel none = "Uncategorized"
    ∧ getCollectionLabel (some "") = "Uncategorized" := by
  refine ⟨rfl, ?_, nodup_jsSetDedup _, ⟨?_, ?_⟩, ⟨?_, ?_⟩, ⟨?_, ?_⟩, rfl, rfl⟩
  · intro v
    simp only [buildFilters, List.mem_map, mem_insSort, mem_jsSetDedup]
    constructor
    · rintro ⟨d, ⟨i, hi, rfl⟩, rfl⟩
      exact ⟨i, hi, rfl⟩
    · rintro ⟨i, hi, rfl⟩
      exact ⟨i.difficulty, ⟨i, hi, rfl⟩, rfl⟩
  · exact nodup_insSort _ _ (nodup_jsSetDedup _)
  · intro v
    simp only [buildFilters, mem_insSort, mem_jsSetDedup]
  · exact nodup_insSort _ _ (nodup_jsSetDedup _)
  · intro v
    simp only [buildFilters, mem_insSort, mem_jsSetDedup]
  · exact nodup_insSort _ _ (nodup_jsSetDedup _)
  · intro v
    simp only [buildFilters, sortColorsForDisplay, mem_insSort, mem_jsSetDedup]

/-- C7: the visible subset is a pure function of (manifest, active filters,
page index) under a fixed configuration — two evaluations of the
filter-and-paginate pipeline with equal manifest contents, equal active
filter selections and equal page index yield equal visible subsets.  (The
pipeline `visibleSubset` is by construction a function of exactly these
arguments; no network, storage or enrichment state enters it.) -/
theorem C7_visible_subset_deterministic (cfg : Option Nat)
    (m1 m2 : List Item) (f1 f2 : Filters) (p1 p2 : Nat)
    (hm : m1 = m2) (hf : f1 = f2) (hp : p1 = p2) :
    visibleSubset cfg m1 f1 p1 = visibleSubset cfg m2 f2 p2 := by
  subst hm; subst hf; subst hp; rfl

/-- C7 witness: the determinism theorem applied at a concrete manifest,
filter state and page. -/
theorem C7_visible_subset_deterministic_witness :
    visibleSubset none [demoItem 2 "a"] onlyDifficulty2 1
      = visibleSubset none [demoItem 2 "a"] onlyDifficulty2 1 :=
  C7_visible_subset_deterministic none [demoItem 2 "a"] [demoItem 2 "a"]
    onlyDifficulty2 onlyDifficulty2 1 1 rfl rfl rfl

/-- C9: starting from a page index within bounds, the page index stays within
1 ≤ currentPage ≤ max(1, ceil(filteredItems.length / pageSize)) after an
`applyFilters` call (with or without `preservePage`) and after a
previous/next navigation; `updatePagination` disables the previous button
exactly when on page 1 or the filtered list is empty, and the next button
exactly when on the last page or the filtered list is empty. -/
theorem C9_page_bounds_and_buttons (cfg : Option Nat) (len prev page : Nat)
    (hprev : 1 ≤ prev) (h1 : 1 ≤ page) (h2 : page ≤ maxPageOf cfg len) :
    (∀ pp : Bool, 1 ≤ pageAfterApplyFilters pp prev cfg len
        ∧ pageAfterApplyFilters pp prev cfg len ≤ maxPageOf cfg len)
    ∧ (1 ≤ pageAfterNext cfg len page ∧ pageAfterNext cfg len page ≤ maxPageOf cfg len)
    ∧ (1 ≤ pageAfterPrev page ∧ pageAfterPrev page ≤ maxPageOf cfg len)
    ∧ ((updatePagination cfg len page).prevDisabled = true ↔ page = 1 ∨ len = 0)
    ∧ ((updatePagination cfg len page).nextDisabled = true ↔
        page = maxPageOf cfg len ∨ len = 0) := by
  have hmax : 1 ≤ maxPageOf cfg len := le_max_left 1 _
  refine ⟨?_, ?_, ?_, ?_, ?_⟩
  · intro pp
    unfold pageAfterApplyFilters
    split_ifs
    · exact ⟨le_min hprev hmax, min_le_right _ _⟩
    · exact ⟨le_refl 1, hmax⟩
  · unfold pageAfterNext
    split_ifs with h
    · exact ⟨by omega, le_trans h (le_max_right 1 _)⟩
    · exact ⟨h1, h2⟩
  · unfold pageAfterPrev
    split_ifs with h
    · exact ⟨by omega, le_trans (Nat.sub_le page 1) h2⟩
    · exact ⟨h1, h2⟩
  · simp [updatePagination]
  · simp only [updatePagination, Bool.or_eq_true, decide_eq_true_eq]
    constructor
    · rintro (h | h)
      · exact Or.inl (le_antisymm h2 h)
      · exact Or.inr h
    · rintro (h | h)
      · exact Or.inl (h ▸ le_refl page)
      · exact Or.inr h

/-- C9 witness: the page-invariant theorem applied at a 5-item filtered list
with the default page size, previous page 1 and current page 1. -/
theorem C9_page_bounds_and_buttons_witness :
    (1 ≤ pageAfterApplyFilters true 1 none 5
      ∧ pageAfterApplyFilters true 1 none 5 ≤ maxPageOf none 5)
    ∧ ((updatePagination none 5 1).prevDisabled = true ↔ 1 = 1 ∨ 5 = 0) :=
  ⟨(C9_page_bounds_and_buttons none 5 1 1 (by decide) (by decide) (by decide)).1 true,
    (C9_page_bounds_and_buttons none 5 1 1 (by decide) (by decide) (by decide)).2.2.2.1⟩

theorem escChar_clean (c : Char) (h : c ≠ '&' ∧ c ≠ '<' ∧ c ≠ '>' ∧ c ≠ quotChar ∧ c ≠ aposChar) :
    escChar c = [c] := by
  unfold escChar
  rw [if_neg h.1, if_neg h.2.1, if_neg h.2.2.1, if_neg h.2.2.2.1, if_neg h.2.2.2.2]

theorem escChar_flatten_clean (l : List Char)
    (h : ∀ c ∈ l, c ≠ '&' ∧ c ≠ '<' ∧ c ≠ '>' ∧ c ≠ quotChar ∧ c ≠ aposChar) :
    (l.map escChar).flatten = l := by
  induction l with
  | nil => rfl
  | cons a t ih =>
    simp only [List.map_cons, List.flatten_cons,
      escChar_clean a (h a (List.mem_cons_self a t))]
    rw [ih fun c hc => h c (List.mem_cons_of_mem a hc)]
    rfl

/-- C10: for every input string, the output of `escapeHtml` contains no
occurrence of the characters `<`, `>`, double quote or single quote, and
every input string containing none of the five escaped characters
(`&`, `<`, `>`, double quote, single quote) is returned unchanged. -/
theorem C10_escapeHtml_sanitizes (s : String) :
    (∀ c ∈ (escapeHtml s).data, c ≠ '<' ∧ c ≠ '>' ∧ c ≠ quotChar ∧ c ≠ aposChar)
    ∧ ((∀ c ∈ s.data, c ≠ '&' ∧ c ≠ '<' ∧ c ≠ '>' ∧ c ≠ quotChar ∧ c ≠ aposChar) →
        escapeHtml s = s) := by
  constructor
  · intro c hc
    have hmem : c ∈ (s.data.map escChar).flatten := hc
    rcases List.mem_flatten.mp hmem with ⟨l, hl, hcl⟩
    rcases List.mem_map.mp hl with ⟨d, -, rfl⟩
    revert hcl
    unfold escChar
    split_ifs with a1 a2 a3 a4 a5 <;> intro hcl
    · fin_cases hcl <;> decide
    · fin_cases hcl <;> decide
    · fin_cases hcl <;> decide
    · fin_cases hcl <;> decide
    · fin_cases hcl <;> decide
    · rcases List.mem_singleton.mp hcl with rfl
      exact ⟨a2, a3, a4, a5⟩
  · intro h
    apply String.ext
    exact escChar_flatten_clean s.data h

/-- C10 witness: sanitisation of a string containing `<`, and identity on a
clean string. -/
theorem C10_escapeHtml_sanitizes_witness :
    (∀ c ∈ (escapeHtml "a<b").data, c ≠ '<' ∧ c ≠ '>' ∧ c ≠ quotChar ∧ c ≠ aposChar)
    ∧ escapeHtml "abc" = "abc" :=
  ⟨(C10_escapeHtml_sanitizes "a<b").1,
    (C10_escapeHtml_sanitizes "abc").2 (by decide)⟩

theorem ageTest_iff (x : Int) : ((x : Int) : ℚ) / msPerHour > 24 ↔ 24 * 3600000 < x := by
  rw [gt_iff_lt, lt_div_iff₀ (by norm_num [msPerHour] : (0 : ℚ) < msPerHour)]
  rw [show (24 : ℚ) * msPerHour = ((24 * 3600000 : Int) : ℚ) by norm_num [msPerHour]]
  exact Int.cast_lt

/-- C8: `getCachedManifest` returns the stored manifest only when the stored
timestamp is at most 24 hours old (and does return it then); for an entry
older than 24 hours it returns null and removes the entry; absent or
unparsable slots give null; and `loadManifestWithCache` never returns a
cached empty-list manifest — it serves the fetched manifest instead, or
throws when the fetch leg fails. -/
theorem C8_cache_expiry_and_empty_discard (st : CacheState) (now : Int) :
    (∀ d, getCachedManifest st now = some d →
        ∃ ts, st = CacheState.entry d ts ∧ now - ts ≤ 24 * 3600000)
    ∧ (∀ data ts, st = CacheState.entry data ts → now - ts ≤ 24 * 3600000 →
        getCachedManifest st now = some data ∧ cacheAfterGet st now = st)
    ∧ (∀ data ts, st = CacheState.entry data ts → 24 * 3600000 < now - ts →
        getCachedManifest st now = none ∧ cacheAfterGet st now = CacheState.absent)
    ∧ getCachedManifest CacheState.absent now = none
    ∧ getCachedManifest CacheState.corrupt now = none
    ∧ (∀ data ts m, st = CacheState.entry data ts → data = [] →
        loadManifestWithCache st now (some m) = Except.ok m
        ∧ loadManifestWithCache st now none = Except.error manifestErrorMsg) := by
  refine ⟨?_, ?_, ?_, rfl, rfl, ?_⟩
  · intro d hd
    cases st with
    | absent => exact absurd hd (by simp [getCachedManifest])
    | corrupt => exact absurd hd (by simp [getCachedManifest])
    | entry data ts =>
      simp only [getCachedManifest] at hd
      split_ifs at hd with h
      simp only [Option.some.injEq] at hd
      refine ⟨ts, by rw [hd], ?_⟩
      have := (not_iff_not.mpr (ageTest_iff (now - ts))).mp h
      omega
  · rintro data ts rfl hage
    have h : ¬ (((now - ts : Int) : ℚ) / msPerHour > 24) :=
      (not_iff_not.mpr (ageTest_iff (now - ts))).mpr (by omega)
    constructor
    · simp only [getCachedManifest]
      rw [if_neg h]
    · simp only [cacheAfterGet]
      rw [if_neg h]
  · rintro data ts rfl hage
    have h : ((now - ts : Int) : ℚ) / msPerHour > 24 := (ageTest_iff (now - ts)).mpr hage
    constructor
    · simp only [getCachedManifest]
      rw [if_pos h]
    · simp only [cacheAfterGet]
      rw [if_pos h]
  · rintro data ts m rfl rfl
    constructor
    · simp only [loadManifestWithCache, getCachedManifest]
      split_ifs <;> rfl
    · simp only [loadManifestWithCache, getCachedManifest]
      split_ifs <;> rfl

/-- C8 witness: the cache theorem applied to a fresh empty-list entry — the
empty cached manifest is discarded in favour of the fetched one — and to an
expired entry, which is removed and yields null. -/
theorem C8_cache_expiry_witness :
    loadManifestWithCache (CacheState.entry [] 0) 0 (some [demoRaw]) = Except.ok [demoRaw]
    ∧ getCachedManifest (CacheState.entry [demoRaw] 0) 100000000000 = none
    ∧ cacheAfterGet (CacheState.entry [demoRaw] 0) 100000000000 = CacheState.absent :=
  ⟨((C8_cache_expiry_and_empty_discard (CacheState.entry [] 0) 0).2.2.2.2.2
      [] 0 [demoRaw] rfl rfl).1,
    ((C8_cache_expiry_and_empty_discard (CacheState.entry [demoRaw] 0) 100000000000).2.2.1
      [demoRaw] 0 rfl (by norm_num)).1,
    ((C8_cache_expiry_and_empty_discard (CacheState.entry [demoRaw] 0) 100000000000).2.2.1
      [demoRaw] 0 rfl (by norm_num)).2⟩

/-- C6: with the configuration loaded, the renderer fails with a single
terminal message exactly when the manifest cannot be obtained at all —
`loadManifestWithCache` returns a manifest iff a fresh non-empty cached copy
exists or fetching `public/manifest.json` succeeds, and throws otherwise; on
that failure `init` surfaces one "Failed to load gallery" message and renders
no partial gallery, while on success it renders the processed manifest. -/
theorem C6_terminal_failure_iff_manifest_unavailable (cfg : GalleryConfig)
    (st : CacheState) (now : Int) (fetched : Option (List RawItem)) (cy : Int) :
    ((∃ m, loadManifestWithCache st now fetched = Except.ok m) ↔
        (∃ d, getCachedManifest st now = some d ∧ d ≠ []) ∨ fetched.isSome = true)
    ∧ (∀ m, loadManifestWithCache st now fetched = Except.ok m →
        init (some cfg) st now fetched cy
          = InitResult.success (processImageMetadata cy m))
    ∧ (∀ e, loadManifestWithCache st now fetched = Except.error e →
        e = manifestErrorMsg
        ∧ init (some cfg) st now fetched cy
            = InitResult.failure ("Failed to load gallery: " ++ e)) := by
  refine ⟨?_, ?_, ?_⟩
  · cases hgc : getCachedManifest st now with
    | some cached =>
      by_cases hne : cached = []
      · subst hne
        cases fetched with
        | some m =>
          simp [loadManifestWithCache, hgc, fetchFreshManifest]
        | none =>
          simp [loadManifestWithCache, hgc, fetchFreshManifest]
      · have hlen : 0 < cached.length := List.length_pos.mpr hne
        simp only [loadManifestWithCache, hgc, if_pos hlen]
        constructor
        · intro _
          exact Or.inl ⟨cached, rfl, hne⟩
        · intro _
          exact ⟨cached, rfl⟩
    | none =>
      cases fetched with
      | some m => simp [loadManifestWithCache, hgc, fetchFreshManifest]
      | none => simp [loadManifestWithCache, hgc, fetchFreshManifest]
  · intro m hm
    simp [init, hm]
  · intro e he
    constructor
    · cases hgc : getCachedManifest st now with
      | some cached =>
        simp only [loadManifestWithCache, hgc] at he
        split_ifs at he
        cases fetched with
        | some m => exact absurd he (by simp [fetchFreshManifest])
        | none =>
          simp only [fetchFreshManifest, Except.error.injEq] at he
          exact he.symm
      | none =>
        simp only [loadManifestWithCache, hgc] at he
        cases fetched with
        | some m => exact absurd he (by simp [fetchFreshManifest])
        | none =>
          simp only [fetchFreshManifest, Except.error.injEq] at he
          exact he.symm
    · simp [init, he]

/-- C6 witness: with config loaded, no cache and a failing fetch, `init`
surfaces exactly the single terminal failure message; with a successful
fetch it renders the gallery. -/
theorem C6_terminal_failure_witness :
    init (some { title := none, itemsPerPage := none }) CacheState.absent 0 none 2024
      = InitResult.failure ("Failed to load gallery: " ++ manifestErrorMsg)
    ∧ init (some { title := none, itemsPerPage := none }) CacheState.absent 0
        (some [demoRaw]) 2024
      = InitResult.success (processImageMetadata 2024 [demoRaw]) :=
  ⟨((C6_terminal_failure_iff_manifest_unavailable { title := none, itemsPerPage := none }
      CacheState.absent 0 none 2024).2.2 manifestErrorMsg rfl).2,
    (C6_terminal_failure_iff_manifest_unavailable { title := none, itemsPerPage := none }
      CacheState.absent 0 (some [demoRaw]) 2024).2.1 [demoRaw] rfl⟩

/-- C2: for every file whose cache entry stores a modification timestamp
equal to the current one of the file and a version stamp equal to the current
enrichment version, the synchronizer takes the cache-hit decision, its output
for that file does not depend on the primary or fallback enrichment functions
at all (neither path is invoked), and the cached record is copied verbatim
into the new manifest, which maps each listed file to its per-file result in
listing order. -/
theorem C2_cache_hit_skips_enrichment (version : String)
    (cache : String → Option Sync.CacheEntry)
    (primary : Sync.SFile → Option Sync.SRecord) (fallback : Sync.SFile → Sync.SRecord)
    (f : Sync.SFile) (e : Sync.CacheEntry)
    (hlookup : cache f.id = some e)
    (hmod : e.modifiedTime = f.modifiedTime)
    (hver : e.record.aiVersion = version) :
    Sync.syncFile version cache primary fallback f = (e.record, Sync.Decision.cacheHit)
    ∧ (∀ (primary2 : Sync.SFile → Option Sync.SRecord)
        (fallback2 : Sync.SFile → Sync.SRecord),
        Sync.syncFile version cache primary2 fallback2 f
          = Sync.syncFile version cache primary fallback f)
    ∧ (∀ files : List Sync.SFile,
        Sync.manifestOf version cache primary fallback files
          = files.map fun g => (Sync.syncFile version cache primary fallback g).1) := by
  have hvalid : Sync.entryValid version e f := ⟨hmod, hver⟩
  have hone : ∀ (p : Sync.SFile → Option Sync.SRecord) (fb : Sync.SFile → Sync.SRecord),
      Sync.syncFile version cache p fb f = (e.record, Sync.Decision.cacheHit) := by
    intro p fb
    simp [Sync.syncFile, hlookup, if_pos hvalid]
  refine ⟨hone primary fallback, ?_, ?_⟩
  · intro primary2 fallback2
    rw [hone primary2 fallback2, hone primary fallback]
  · intro files
    simp [Sync.manifestOf, Sync.syncRun]

/-- C2 witness: the cache-hit theorem applied to a concrete valid cache
entry, with a primary path that always fails and a fallback producing a
visibly different record — the cached record is returned untouched. -/
theorem C2_cache_hit_skips_enrichment_witness :
    Sync.syncFile "v1" Sync.demoCache Sync.demoPrimary Sync.demoFallback Sync.demoFile
      = (Sync.demoRecord, Sync.Decision.cacheHit) :=
  (C2_cache_hit_skips_enrichment "v1" Sync.demoCache Sync.demoPrimary Sync.demoFallback
    Sync.demoFile { record := Sync.demoRecord, modifiedTime := "t1" }
    (by decide) rfl rfl).1

end Portfolio
